import Mathlib

/-!
# A shallow embedding of `src/client.py` (Roundnet-AI/live-processing-client)

This file models the `FileManagerClient` class: its mutable state (local
directories, remote buckets, the two in-memory history ledgers and their
persisted file contents), the upload pipeline (`_check_input_files`,
`_upload_files`, `_upload_file`), the download pipeline
(`_check_for_downloads`, `_list_s3_files`, `_download_file`), and the
polling-loop control flow of `_manage_input` / `_manage_output`.

Filenames and object keys are modelled as `List Char`.  Fallible external
operations (S3 transfer, `playsound`) are modelled by Boolean oracles saying
whether the call raises; Python exception propagation is modelled by
threading a `Bool × ClientState` result: `false` means an uncaught exception
escaped, carrying along the side effects performed before the raise.
-/

namespace Client

/-- A filename or object key, modelled as its character sequence. -/
abbrev Name := List Char

/-- The character substitution performed by `file.name.replace(" ", "_")`
(`src/client.py` lines 91-92): each space becomes an underscore. -/
def spaceToUnderscore (c : Char) : Char :=
  if c = ' ' then '_' else c

/-- Net effect on a filename of `_upload_file` lines 89-92: if the name
contains a space it is replaced by the name with every space replaced by an
underscore, otherwise it is left alone. -/
def sanitize (n : Name) : Name :=
  if ' ' ∈ n then n.map spaceToUnderscore else n

/-- The kind of a directory entry as seen by the filesystem.  `Path.glob("*")`
returns every entry of the directory whatever its kind. -/
inductive EntryKind
  | regularFile
  | directory
  | other
  deriving DecidableEq, Repr

/-- One entry of the input directory: a name plus its filesystem kind.
`_upload_file` receives such an entry (a `Path`) and uses only its name. -/
structure DirEntry where
  name : Name
  kind : EntryKind
  deriving DecidableEq, Repr

/-- `os.rename(file, file.with_name(new))` inside the input directory:
the entry keeps its kind, only the name changes. -/
def renameEntry (dir : List DirEntry) (old new : Name) : List DirEntry :=
  dir.map fun e => if e.name = old then { e with name := new } else e

/-- Removing an entry from the input directory, as the
`os.rename(file, self.input_archive / file.name)` move does (line 105). -/
def removeEntry (dir : List DirEntry) (n : Name) : List DirEntry :=
  dir.filter fun e => e.name ≠ n

/-- The state of a `FileManagerClient` together with the filesystem and
remote objects it manipulates:

* `inputDir`    — entries of `self.input`;
* `archiveDir`  — names present in `self.input_archive`;
* `outputDir`   — names present in `self.output`;
* `uploadBucket`, `downloadBucket` — keys of the two S3 buckets;
* `uploadHistory`, `downloadHistory` — the in-memory ledgers
  `self.upload_history` / `self.download_history`;
* `uploadPersist`, `downloadPersist` — the JSON contents of the ledger
  files `self.upload_fp` / `self.download_fp`. -/
structure ClientState where
  inputDir : List DirEntry
  archiveDir : List Name
  outputDir : List Name
  uploadBucket : List Name
  downloadBucket : List Name
  uploadHistory : List Name
  uploadPersist : List Name
  downloadHistory : List Name
  downloadPersist : List Name
  deriving DecidableEq, Repr

/-! ## Upload pipeline (`_check_input_files`, `_upload_files`, `_upload_file`)

`_upload_file` is decomposed into its successive statements so that every
intermediate state of a single-file upload is a first-class object. -/

/-- State after lines 89-92 of `_upload_file`: the conditional in-place
rename of a name containing spaces.  No transfer has happened yet. -/
def afterRename (s : ClientState) (e : DirEntry) : ClientState :=
  if ' ' ∈ e.name then
    { s with inputDir := renameEntry s.inputDir e.name (sanitize e.name) }
  else s

/-- State after lines 93-101: `self.s3.upload_file(...)` stored the object
under key `file.name` (the possibly renamed basename). -/
def afterTransfer (s : ClientState) (e : DirEntry) : ClientState :=
  { afterRename s e with
    uploadBucket := (afterRename s e).uploadBucket ++ [sanitize e.name] }

/-- State after line 102: `self.upload_history.append(file.name)`. -/
def afterAppend (s : ClientState) (e : DirEntry) : ClientState :=
  { afterTransfer s e with
    uploadHistory := (afterTransfer s e).uploadHistory ++ [sanitize e.name] }

/-- State after lines 103-104: `json.dump(self.upload_history, f)` rewrote
the upload ledger file with the in-memory ledger. -/
def afterFlush (s : ClientState) (e : DirEntry) : ClientState :=
  { afterAppend s e with uploadPersist := (afterAppend s e).uploadHistory }

/-- State after line 105: `os.rename(file, self.input_archive / file.name)`
moved the (possibly renamed) file out of the input directory into the
archive directory under its current name. -/
def afterArchive (s : ClientState) (e : DirEntry) : ClientState :=
  { afterFlush s e with
    inputDir := removeEntry (afterFlush s e).inputDir (sanitize e.name)
    archiveDir := (afterFlush s e).archiveDir ++ [sanitize e.name] }

/-- `_upload_file` (lines 83-105).  `upOk` says whether the S3 transfer of a
given key succeeds; on failure the exception escapes (result flag `false`)
after the rename side effect but before ledger append and archive move. -/
def uploadFile (upOk : Name → Bool) (s : ClientState) (e : DirEntry) :
    Bool × ClientState :=
  if upOk (sanitize e.name) then (true, afterArchive s e)
  else (false, afterRename s e)

/-- The successive intermediate states of one `_upload_file` call on its
success path, in program order. -/
def uploadFileTrace (s : ClientState) (e : DirEntry) : List ClientState :=
  [s, afterRename s e, afterTransfer s e, afterAppend s e, afterFlush s e,
    afterArchive s e]

/-- `_upload_files` (lines 74-81): `for file in files: self._upload_file(file)`.
There is no exception handler, so a raise in `_upload_file` aborts the
remaining entries and escapes. -/
def uploadEntries (upOk : Name → Bool) :
    ClientState → List DirEntry → Bool × ClientState
  | s, [] => (true, s)
  | s, e :: rest =>
    let r := uploadFile upOk s e
    if r.1 then uploadEntries upOk r.2 rest else r

/-- `_check_input_files` (lines 65-72): `list(self.input.glob("*"))` —
every entry of the input directory, with no filtering by kind. -/
def checkInputFiles (s : ClientState) : List DirEntry :=
  s.inputDir

/-- One iteration body of `_manage_input` (lines 109-111): snapshot the
input directory and, if non-empty, upload every entry. -/
def uploadIteration (upOk : Name → Bool) (s : ClientState) :
    Bool × ClientState :=
  let files := checkInputFiles s
  if files.isEmpty then (true, s) else uploadEntries upOk s files

/-! ## Download pipeline (`_check_for_downloads`, `_list_s3_files`,
`_download_file`) -/

/-- `_list_s3_files` (lines 125-131): the keys currently present in the
download bucket (empty list when the bucket is empty). -/
def listS3Files (s : ClientState) : List Name :=
  s.downloadBucket

/-- `_download_file` (lines 133-139).  `dlOk` says whether the S3 download
of a key succeeds; `nOk` says whether `playsound("notify.mp3")` succeeds.
On a download failure nothing happened; on a playback failure the file is
already in the output directory but the ledger append and flush (lines
137-139) are never reached, and the exception escapes. -/
def downloadFile (dlOk : Name → Bool) (nOk : Bool) (s : ClientState)
    (k : Name) : Bool × ClientState :=
  if dlOk k then
    let s1 := { s with outputDir := s.outputDir ++ [k] }
    if nOk then
      let s2 := { s1 with downloadHistory := s1.downloadHistory ++ [k] }
      (true, { s2 with downloadPersist := s2.downloadHistory })
    else (false, s1)
  else (false, s)

/-- The per-key loop of `_check_for_downloads` (lines 121-123): each listed
key is skipped when already in the in-memory download ledger, otherwise
downloaded.  There is no exception handler, so a raise in `_download_file`
aborts the remaining keys and escapes. -/
def downloadKeys (dlOk : Name → Bool) (nOk : Bool) :
    ClientState → List Name → Bool × ClientState
  | s, [] => (true, s)
  | s, k :: rest =>
    if k ∈ s.downloadHistory then downloadKeys dlOk nOk s rest
    else
      let r := downloadFile dlOk nOk s k
      if r.1 then downloadKeys dlOk nOk r.2 rest else r

/-- `_check_for_downloads` (lines 119-123): one iteration body of
`_manage_output`. -/
def checkForDownloads (dlOk : Name → Bool) (nOk : Bool) (s : ClientState) :
    Bool × ClientState :=
  downloadKeys dlOk nOk s (listS3Files s)

/-! ## Polling-loop control flow (`_manage_input`, `_manage_output`,
`handle_termination_signal`)

Both loops have the identical shape (lines 107-117):

    while self.running:
        <iteration body>
        time.sleep(self.sleep_interval)

`handle_termination_signal` (lines 171-176) clears `self.running` and joins
both threads.  The loop is modelled as a small-step machine whose only
flag read is the `while` test; `time.sleep` is a countdown of
`sleep_interval` ticks during which the flag is never consulted. -/

/-- Control position of one polling loop: about to evaluate
`while self.running`; executing the iteration body; inside
`time.sleep` with some ticks remaining; or terminated. -/
inductive LoopPhase
  | check
  | work
  | sleeping (remaining : Nat)
  | stopped
  deriving DecidableEq, Repr

/-- State of one polling loop: its control position, the shared
`self.running` flag as the loop observes it, and the number of completed
iteration bodies (each of which performs that iteration's transfers). -/
structure LoopState where
  phase : LoopPhase
  running : Bool
  iterations : Nat
  deriving DecidableEq, Repr

/-- One small step of `_manage_input` / `_manage_output`.  The flag is read
only at `check` (the `while` test, which is both the top of each iteration
and the first thing evaluated after waking from sleep); a tick of
`time.sleep` proceeds regardless of the flag. -/
def loopStep (sleepInterval : Nat) (s : LoopState) : LoopState :=
  match s.phase with
  | .check =>
    if s.running then { s with phase := .work }
    else { s with phase := .stopped }
  | .work =>
    { s with phase := .sleeping sleepInterval, iterations := s.iterations + 1 }
  | .sleeping (n + 1) => { s with phase := .sleeping n }
  | .sleeping 0 => { s with phase := .check }
  | .stopped => s

/-- `n` small steps of the polling loop. -/
def loopRun (sleepInterval : Nat) (s : LoopState) : Nat → LoopState
  | 0 => s
  | n + 1 => loopRun sleepInterval (loopStep sleepInterval s) n

/-- A client state with empty directories, buckets and ledgers. -/
def emptyState : ClientState :=
  ⟨[], [], [], [], [], [], [], [], []⟩

/-! ## Basic lemmas about the filename sanitization -/

theorem space_not_mem_map_spaceToUnderscore (n : Name) :
    ' ' ∉ n.map spaceToUnderscore := by
  intro h
  rcases List.mem_map.mp h with ⟨c, _, hc⟩
  by_cases h' : c = ' ' <;> simp [spaceToUnderscore, h'] at hc

theorem space_not_mem_sanitize (n : Name) : ' ' ∉ sanitize n := by
  unfold sanitize
  split
  · exact space_not_mem_map_spaceToUnderscore n
  · assumption

theorem sanitize_of_space_not_mem {n : Name} (h : ' ' ∉ n) :
    sanitize n = n := by
  simp [sanitize, h]

theorem sanitize_sanitize (n : Name) :
    sanitize (sanitize n) = sanitize n :=
  sanitize_of_space_not_mem (space_not_mem_sanitize n)

/-! ## Field lemmas for the intermediate states of `_upload_file` -/

theorem afterRename_archiveDir (s : ClientState) (e : DirEntry) :
    (afterRename s e).archiveDir = s.archiveDir := by
  unfold afterRename
  split <;> rfl

theorem afterRename_uploadBucket (s : ClientState) (e : DirEntry) :
    (afterRename s e).uploadBucket = s.uploadBucket := by
  unfold afterRename
  split <;> rfl

theorem afterRename_uploadHistory (s : ClientState) (e : DirEntry) :
    (afterRename s e).uploadHistory = s.uploadHistory := by
  unfold afterRename
  split <;> rfl

theorem afterRename_uploadPersist (s : ClientState) (e : DirEntry) :
    (afterRename s e).uploadPersist = s.uploadPersist := by
  unfold afterRename
  split <;> rfl

theorem afterRename_downloadHistory (s : ClientState) (e : DirEntry) :
    (afterRename s e).downloadHistory = s.downloadHistory := by
  unfold afterRename
  split <;> rfl

theorem afterRename_downloadPersist (s : ClientState) (e : DirEntry) :
    (afterRename s e).downloadPersist = s.downloadPersist := by
  unfold afterRename
  split <;> rfl

theorem afterTransfer_archiveDir (s : ClientState) (e : DirEntry) :
    (afterTransfer s e).archiveDir = s.archiveDir := by
  simp [afterTransfer, afterRename_archiveDir]

theorem afterTransfer_uploadBucket (s : ClientState) (e : DirEntry) :
    (afterTransfer s e).uploadBucket = s.uploadBucket ++ [sanitize e.name] := by
  simp [afterTransfer, afterRename_uploadBucket]

theorem afterTransfer_uploadHistory (s : ClientState) (e : DirEntry) :
    (afterTransfer s e).uploadHistory = s.uploadHistory := by
  simp [afterTransfer, afterRename_uploadHistory]

theorem afterTransfer_uploadPersist (s : ClientState) (e : DirEntry) :
    (afterTransfer s e).uploadPersist = s.uploadPersist := by
  simp [afterTransfer, afterRename_uploadPersist]

theorem afterAppend_archiveDir (s : ClientState) (e : DirEntry) :
    (afterAppend s e).archiveDir = s.archiveDir := by
  simp [afterAppend, afterTransfer_archiveDir]

theorem afterAppend_uploadHistory (s : ClientState) (e : DirEntry) :
    (afterAppend s e).uploadHistory = s.uploadHistory ++ [sanitize e.name] := by
  simp [afterAppend, afterTransfer_uploadHistory]

theorem afterAppend_uploadPersist (s : ClientState) (e : DirEntry) :
    (afterAppend s e).uploadPersist = s.uploadPersist := by
  simp [afterAppend, afterTransfer_uploadPersist]

theorem afterFlush_archiveDir (s : ClientState) (e : DirEntry) :
    (afterFlush s e).archiveDir = s.archiveDir := by
  simp [afterFlush, afterAppend_archiveDir]

theorem afterFlush_uploadHistory (s : ClientState) (e : DirEntry) :
    (afterFlush s e).uploadHistory = s.uploadHistory ++ [sanitize e.name] := by
  simp [afterFlush, afterAppend_uploadHistory]

theorem afterFlush_uploadPersist (s : ClientState) (e : DirEntry) :
    (afterFlush s e).uploadPersist = s.uploadHistory ++ [sanitize e.name] := by
  simp [afterFlush, afterAppend_uploadHistory]

theorem afterFlush_uploadBucket (s : ClientState) (e : DirEntry) :
    (afterFlush s e).uploadBucket = s.uploadBucket ++ [sanitize e.name] := by
  simp [afterFlush, afterAppend, afterTransfer_uploadBucket]

theorem afterArchive_archiveDir (s : ClientState) (e : DirEntry) :
    (afterArchive s e).archiveDir = s.archiveDir ++ [sanitize e.name] := by
  simp [afterArchive, afterFlush_archiveDir]

theorem afterArchive_uploadHistory (s : ClientState) (e : DirEntry) :
    (afterArchive s e).uploadHistory = s.uploadHistory ++ [sanitize e.name] := by
  simp [afterArchive, afterFlush_uploadHistory]

theorem afterArchive_uploadPersist (s : ClientState) (e : DirEntry) :
    (afterArchive s e).uploadPersist = s.uploadHistory ++ [sanitize e.name] := by
  simp [afterArchive, afterFlush_uploadPersist]

theorem afterArchive_uploadBucket (s : ClientState) (e : DirEntry) :
    (afterArchive s e).uploadBucket = s.uploadBucket ++ [sanitize e.name] := by
  simp [afterArchive, afterFlush_uploadBucket]

/-! ## Unfolding lemmas for `uploadFile` and `uploadEntries` -/

theorem uploadFile_ok (upOk : Name → Bool) (s : ClientState) (e : DirEntry)
    (h : upOk (sanitize e.name) = true) :
    uploadFile upOk s e = (true, afterArchive s e) := by
  simp [uploadFile, h]

theorem uploadFile_fail (upOk : Name → Bool) (s : ClientState) (e : DirEntry)
    (h : upOk (sanitize e.name) = false) :
    uploadFile upOk s e = (false, afterRename s e) := by
  simp [uploadFile, h]

theorem uploadEntries_cons_ok (upOk : Name → Bool) (s : ClientState)
    (e : DirEntry) (rest : List DirEntry) (h : upOk (sanitize e.name) = true) :
    uploadEntries upOk s (e :: rest) = uploadEntries upOk (afterArchive s e) rest := by
  simp [uploadEntries, uploadFile_ok upOk s e h]

theorem uploadEntries_cons_fail (upOk : Name → Bool) (s : ClientState)
    (e : DirEntry) (rest : List DirEntry) (h : upOk (sanitize e.name) = false) :
    uploadEntries upOk s (e :: rest) = (false, afterRename s e) := by
  simp [uploadEntries, uploadFile_fail upOk s e h]

theorem uploadEntries_allOk_uploadBucket (l : List DirEntry) :
    ∀ s : ClientState,
      (uploadEntries (fun _ => true) s l).2.uploadBucket
        = s.uploadBucket ++ l.map (fun e => sanitize e.name) := by
  induction l with
  | nil => intro s; simp [uploadEntries]
  | cons e rest ih =>
    intro s
    rw [uploadEntries_cons_ok _ s e rest rfl, ih, afterArchive_uploadBucket]
    simp

/-! ## C2: the ledger append and flush precede the archive move -/

/-- C2: within a single `_upload_file` call, the ledger append and the
persistent flush happen strictly before the archive move: at the flush
point (line 104) the name is already persisted while not yet archived,
and at no intermediate state of the call is the (possibly renamed) file
archived while absent from the persisted upload ledger. -/
theorem upload_record_before_archive (s : ClientState) (e : DirEntry)
    (h : sanitize e.name ∉ s.archiveDir) :
    (sanitize e.name ∈ (afterFlush s e).uploadPersist ∧
        sanitize e.name ∉ (afterFlush s e).archiveDir) ∧
    ∀ t ∈ uploadFileTrace s e,
      sanitize e.name ∈ t.archiveDir → sanitize e.name ∈ t.uploadPersist := by
  constructor
  · constructor
    · rw [afterFlush_uploadPersist]
      exact List.mem_append_right _ (by simp)
    · rw [afterFlush_archiveDir]
      exact h
  · intro t ht
    simp only [uploadFileTrace, List.mem_cons, List.not_mem_nil, or_false] at ht
    rcases ht with rfl | rfl | rfl | rfl | rfl | rfl
    · exact fun hc => absurd hc h
    · rw [afterRename_archiveDir]
      exact fun hc => absurd hc h
    · rw [afterTransfer_archiveDir]
      exact fun hc => absurd hc h
    · rw [afterAppend_archiveDir]
      exact fun hc => absurd hc h
    · rw [afterFlush_archiveDir]
      exact fun hc => absurd hc h
    · rw [afterArchive_uploadPersist]
      exact fun _ => List.mem_append_right _ (by simp)

/-- Witness for `upload_record_before_archive` at a concrete state. -/
theorem upload_record_before_archive_witness :
    sanitize ['a'] ∉ emptyState.archiveDir ∧
    ((sanitize ['a'] ∈ (afterFlush emptyState ⟨['a'], .regularFile⟩).uploadPersist ∧
        sanitize ['a'] ∉ (afterFlush emptyState ⟨['a'], .regularFile⟩).archiveDir) ∧
      ∀ t ∈ uploadFileTrace emptyState ⟨['a'], .regularFile⟩,
        sanitize ['a'] ∈ t.archiveDir → sanitize ['a'] ∈ t.uploadPersist) :=
  ⟨by decide, upload_record_before_archive emptyState ⟨['a'], .regularFile⟩ (by decide)⟩

/-! ## C6: space-to-underscore rename before transfer, idempotent -/

/-- C6: the in-place rename performed by `_upload_file` (lines 89-92)
replaces every space of the filename with an underscore and happens before
any transfer (the upload bucket is untouched at the rename point); the
remote key the file is then uploaded under is the sanitized name, which
contains no space; and the rename is idempotent — a name free of spaces is
left unchanged. -/
theorem upload_rename_sanitizes (upOk : Name → Bool) (s : ClientState)
    (e : DirEntry) (h : upOk (sanitize e.name) = true) :
    ' ' ∉ sanitize e.name ∧
    sanitize (sanitize e.name) = sanitize e.name ∧
    (' ' ∉ e.name → sanitize e.name = e.name) ∧
    (' ' ∈ e.name →
      afterRename s e
        = { s with inputDir := renameEntry s.inputDir e.name (sanitize e.name) }) ∧
    (afterRename s e).uploadBucket = s.uploadBucket ∧
    (uploadFile upOk s e).2.uploadBucket = s.uploadBucket ++ [sanitize e.name] := by
  refine ⟨space_not_mem_sanitize _, sanitize_sanitize _, sanitize_of_space_not_mem,
    ?_, afterRename_uploadBucket s e, ?_⟩
  · intro hsp
    simp [afterRename, hsp]
  · rw [uploadFile_ok upOk s e h, afterArchive_uploadBucket]

/-- Witness for `upload_rename_sanitizes` on the spaced filename `"a b"`. -/
theorem upload_rename_sanitizes_witness :
    (fun _ => true : Name → Bool) (sanitize ['a', ' ', 'b']) = true ∧
    (' ' ∉ sanitize ['a', ' ', 'b'] ∧
      sanitize (sanitize ['a', ' ', 'b']) = sanitize ['a', ' ', 'b'] ∧
      (' ' ∉ ['a', ' ', 'b'] → sanitize ['a', ' ', 'b'] = ['a', ' ', 'b']) ∧
      (' ' ∈ ['a', ' ', 'b'] →
        afterRename emptyState ⟨['a', ' ', 'b'], .regularFile⟩
          = { emptyState with
              inputDir := renameEntry emptyState.inputDir ['a', ' ', 'b']
                (sanitize ['a', ' ', 'b']) }) ∧
      (afterRename emptyState ⟨['a', ' ', 'b'], .regularFile⟩).uploadBucket
        = emptyState.uploadBucket ∧
      (uploadFile (fun _ => true) emptyState
          ⟨['a', ' ', 'b'], .regularFile⟩).2.uploadBucket
        = emptyState.uploadBucket ++ [sanitize ['a', ' ', 'b']]) :=
  ⟨rfl, upload_rename_sanitizes (fun _ => true) emptyState
    ⟨['a', ' ', 'b'], .regularFile⟩ rfl⟩

/-! ## C7: the archive move uses the renamed name, not the original one -/

/-- C7 counterexample: for the input file `"a b"` (a name with a space),
one successful `_upload_file` moves it into the archive directory under
the renamed name `"a_b"`; the original name `"a b"` appears nowhere in the
archive, contradicting the claim that the file is archived under its
original name. -/
theorem upload_archives_renamed_cex :
    (uploadFile (fun _ => true)
        { emptyState with inputDir := [⟨['a', ' ', 'b'], .regularFile⟩] }
        ⟨['a', ' ', 'b'], .regularFile⟩).2.archiveDir = [['a', '_', 'b']] ∧
    ['a', ' ', 'b'] ∉ (uploadFile (fun _ => true)
        { emptyState with inputDir := [⟨['a', ' ', 'b'], .regularFile⟩] }
        ⟨['a', ' ', 'b'], .regularFile⟩).2.archiveDir := by
  decide

/-- C7 (amended): a successfully uploaded file is moved into the archive
directory under its possibly renamed name — the name with spaces replaced
by underscores — which coincides with the original name exactly when the
original name contained no space. -/
theorem upload_archives_under_sanitized_name (upOk : Name → Bool)
    (s : ClientState) (e : DirEntry) (h : upOk (sanitize e.name) = true) :
    (uploadFile upOk s e).2.archiveDir = s.archiveDir ++ [sanitize e.name] ∧
    (' ' ∉ e.name → sanitize e.name = e.name) :=
  ⟨by rw [uploadFile_ok upOk s e h, afterArchive_archiveDir],
    sanitize_of_space_not_mem⟩

/-- Witness for `upload_archives_under_sanitized_name` on `"a b"`. -/
theorem upload_archives_under_sanitized_name_witness :
    (fun _ => true : Name → Bool) (sanitize ['a', ' ', 'b']) = true ∧
    ((uploadFile (fun _ => true) emptyState
        ⟨['a', ' ', 'b'], .regularFile⟩).2.archiveDir
      = emptyState.archiveDir ++ [sanitize ['a', ' ', 'b']] ∧
    (' ' ∉ ['a', ' ', 'b'] → sanitize ['a', ' ', 'b'] = ['a', ' ', 'b'])) :=
  ⟨rfl, upload_archives_under_sanitized_name (fun _ => true) emptyState
    ⟨['a', ' ', 'b'], .regularFile⟩ rfl⟩

/-! ## C10: every directory entry is an upload candidate, kind unchecked -/

/-- C10: `_check_input_files` returns every entry of the input directory
with no filtering; `_upload_file` is insensitive to the entry's filesystem
kind (directory, regular file or otherwise); and with all transfers
succeeding, `_upload_files` uploads every scanned entry — subdirectories
and other non-regular-file entries included — each under its sanitized
name. -/
theorem upload_candidates_every_entry (s : ClientState) :
    checkInputFiles s = s.inputDir ∧
    (∀ (upOk : Name → Bool) (e : DirEntry) (k : EntryKind),
      uploadFile upOk s ⟨e.name, k⟩ = uploadFile upOk s e) ∧
    (uploadEntries (fun _ => true) s (checkInputFiles s)).2.uploadBucket
      = s.uploadBucket ++ (checkInputFiles s).map (fun e => sanitize e.name) :=
  ⟨rfl, fun _ _ _ => rfl, uploadEntries_allOk_uploadBucket _ s⟩

/-! ## Unfolding lemmas for `downloadFile` and `downloadKeys` -/

theorem downloadFile_dl_fail (dlOk : Name → Bool) (nOk : Bool)
    (s : ClientState) (k : Name) (h : dlOk k = false) :
    downloadFile dlOk nOk s k = (false, s) := by
  simp [downloadFile, h]

theorem downloadFile_notify_fail (dlOk : Name → Bool) (s : ClientState)
    (k : Name) (h : dlOk k = true) :
    downloadFile dlOk false s k
      = (false, { s with outputDir := s.outputDir ++ [k] }) := by
  simp [downloadFile, h]

theorem downloadFile_ok (dlOk : Name → Bool) (s : ClientState) (k : Name)
    (h : dlOk k = true) :
    downloadFile dlOk true s k
      = (true, { s with
                 outputDir := s.outputDir ++ [k],
                 downloadHistory := s.downloadHistory ++ [k],
                 downloadPersist := s.downloadHistory ++ [k] }) := by
  simp [downloadFile, h]

theorem downloadKeys_cons_mem (dlOk : Name → Bool) (nOk : Bool)
    (s : ClientState) (k : Name) (rest : List Name)
    (h : k ∈ s.downloadHistory) :
    downloadKeys dlOk nOk s (k :: rest) = downloadKeys dlOk nOk s rest := by
  simp [downloadKeys, h]

theorem downloadKeys_cons_dl_fail (dlOk : Name → Bool) (nOk : Bool)
    (s : ClientState) (k : Name) (rest : List Name)
    (h : k ∉ s.downloadHistory) (hdl : dlOk k = false) :
    downloadKeys dlOk nOk s (k :: rest) = (false, s) := by
  simp [downloadKeys, h, downloadFile_dl_fail dlOk nOk s k hdl]

theorem downloadKeys_cons_notify_fail (dlOk : Name → Bool) (s : ClientState)
    (k : Name) (rest : List Name)
    (h : k ∉ s.downloadHistory) (hdl : dlOk k = true) :
    downloadKeys dlOk false s (k :: rest)
      = (false, { s with outputDir := s.outputDir ++ [k] }) := by
  simp [downloadKeys, h, downloadFile_notify_fail dlOk s k hdl]

theorem downloadKeys_cons_ok (dlOk : Name → Bool) (s : ClientState)
    (k : Name) (rest : List Name)
    (h : k ∉ s.downloadHistory) (hdl : dlOk k = true) :
    downloadKeys dlOk true s (k :: rest)
      = downloadKeys dlOk true
          { s with
            outputDir := s.outputDir ++ [k],
            downloadHistory := s.downloadHistory ++ [k],
            downloadPersist := s.downloadHistory ++ [k] } rest := by
  simp [downloadKeys, h, downloadFile_ok dlOk s k hdl]

/-! ## Invariant lemmas for the download loop -/

theorem downloadKeys_history_append (dlOk : Name → Bool) (nOk : Bool)
    (keys : List Name) :
    ∀ s : ClientState, ∃ t,
      (downloadKeys dlOk nOk s keys).2.downloadHistory
        = s.downloadHistory ++ t := by
  induction keys with
  | nil => exact fun s => ⟨[], by simp [downloadKeys]⟩
  | cons k rest ih =>
    intro s
    by_cases hk : k ∈ s.downloadHistory
    · rw [downloadKeys_cons_mem dlOk nOk s k rest hk]
      exact ih s
    · cases hdl : dlOk k with
      | false =>
        rw [downloadKeys_cons_dl_fail dlOk nOk s k rest hk hdl]
        exact ⟨[], by simp⟩
      | true =>
        cases nOk with
        | false =>
          rw [downloadKeys_cons_notify_fail dlOk s k rest hk hdl]
          exact ⟨[], by simp⟩
        | true =>
          rw [downloadKeys_cons_ok dlOk s k rest hk hdl]
          obtain ⟨t, ht⟩ := ih _
          exact ⟨k :: t, by rw [ht]; simp⟩

theorem downloadKeys_nodup (dlOk : Name → Bool) (nOk : Bool)
    (keys : List Name) :
    ∀ s : ClientState, s.downloadHistory.Nodup →
      (downloadKeys dlOk nOk s keys).2.downloadHistory.Nodup := by
  induction keys with
  | nil => intro s h; simpa [downloadKeys] using h
  | cons k rest ih =>
    intro s hnd
    by_cases hk : k ∈ s.downloadHistory
    · rw [downloadKeys_cons_mem dlOk nOk s k rest hk]
      exact ih s hnd
    · cases hdl : dlOk k with
      | false =>
        rw [downloadKeys_cons_dl_fail dlOk nOk s k rest hk hdl]
        exact hnd
      | true =>
        cases nOk with
        | false =>
          rw [downloadKeys_cons_notify_fail dlOk s k rest hk hdl]
          exact hnd
        | true =>
          rw [downloadKeys_cons_ok dlOk s k rest hk hdl]
          exact ih _ (by simp [List.nodup_append, hnd, hk])

theorem downloadKeys_count_outputDir (dlOk : Name → Bool) (nOk : Bool)
    (x : Name) (keys : List Name) :
    ∀ s : ClientState, x ∈ s.downloadHistory →
      List.count x (downloadKeys dlOk nOk s keys).2.outputDir
        = List.count x s.outputDir := by
  induction keys with
  | nil => intro s _; simp [downloadKeys]
  | cons k rest ih =>
    intro s hx
    by_cases hk : k ∈ s.downloadHistory
    · rw [downloadKeys_cons_mem dlOk nOk s k rest hk]
      exact ih s hx
    · have hxk : x ≠ k := fun h => hk (h ▸ hx)
      cases hdl : dlOk k with
      | false =>
        rw [downloadKeys_cons_dl_fail dlOk nOk s k rest hk hdl]
      | true =>
        cases nOk with
        | false =>
          rw [downloadKeys_cons_notify_fail dlOk s k rest hk hdl]
          simp [List.count_append, List.count_singleton', hxk]
        | true =>
          rw [downloadKeys_cons_ok dlOk s k rest hk hdl]
          rw [ih _ (List.mem_append_left _ hx)]
          simp [List.count_append, List.count_singleton', hxk]

theorem downloadKeys_persist_inv (dlOk : Name → Bool) (nOk : Bool)
    (keys : List Name) :
    ∀ s : ClientState, s.downloadPersist = s.downloadHistory →
      (downloadKeys dlOk nOk s keys).2.downloadPersist
        = (downloadKeys dlOk nOk s keys).2.downloadHistory := by
  induction keys with
  | nil => intro s h; simpa [downloadKeys] using h
  | cons k rest ih =>
    intro s hp
    by_cases hk : k ∈ s.downloadHistory
    · rw [downloadKeys_cons_mem dlOk nOk s k rest hk]
      exact ih s hp
    · cases hdl : dlOk k with
      | false =>
        rw [downloadKeys_cons_dl_fail dlOk nOk s k rest hk hdl]
        exact hp
      | true =>
        cases nOk with
        | false =>
          rw [downloadKeys_cons_notify_fail dlOk s k rest hk hdl]
          exact hp
        | true =>
          rw [downloadKeys_cons_ok dlOk s k rest hk hdl]
          exact ih _ rfl

/-! ## Invariant lemmas for the upload loop -/

theorem uploadEntries_uploadHistory_append (upOk : Name → Bool)
    (l : List DirEntry) :
    ∀ s : ClientState, ∃ t,
      (uploadEntries upOk s l).2.uploadHistory = s.uploadHistory ++ t := by
  induction l with
  | nil => exact fun s => ⟨[], by simp [uploadEntries]⟩
  | cons e rest ih =>
    intro s
    cases hup : upOk (sanitize e.name) with
    | false =>
      rw [uploadEntries_cons_fail upOk s e rest hup]
      exact ⟨[], by rw [afterRename_uploadHistory]; simp⟩
    | true =>
      rw [uploadEntries_cons_ok upOk s e rest hup]
      obtain ⟨t, ht⟩ := ih (afterArchive s e)
      exact ⟨sanitize e.name :: t, by rw [ht, afterArchive_uploadHistory]; simp⟩

theorem uploadEntries_persist_inv (upOk : Name → Bool) (l : List DirEntry) :
    ∀ s : ClientState, s.uploadPersist = s.uploadHistory →
      (uploadEntries upOk s l).2.uploadPersist
        = (uploadEntries upOk s l).2.uploadHistory := by
  induction l with
  | nil => intro s h; simpa [uploadEntries] using h
  | cons e rest ih =>
    intro s hp
    cases hup : upOk (sanitize e.name) with
    | false =>
      rw [uploadEntries_cons_fail upOk s e rest hup]
      show (afterRename s e).uploadPersist = (afterRename s e).uploadHistory
      rw [afterRename_uploadPersist, afterRename_uploadHistory]
      exact hp
    | true =>
      rw [uploadEntries_cons_ok upOk s e rest hup]
      exact ih _ (by rw [afterArchive_uploadPersist, afterArchive_uploadHistory])

/-! ## C1: per-item failures are not contained -/

/-- C1 counterexample: with input entries `"a"` then `"b"` and the
transfer of `"a"` failing, the upload iteration aborts with an escaped
exception (result flag `false`), leaves the state untouched, and never
processes the remaining entry `"b"` — contradicting the claim that a
failure on one item neither aborts the rest of the iteration nor
terminates the loop. -/
theorem upload_failure_aborts_cex :
    (uploadIteration (fun n => decide (n ≠ ['a']))
        { emptyState with
          inputDir := [⟨['a'], .regularFile⟩, ⟨['b'], .regularFile⟩] }).1
      = false ∧
    ['b'] ∉ (uploadIteration (fun n => decide (n ≠ ['a']))
        { emptyState with
          inputDir := [⟨['a'], .regularFile⟩, ⟨['b'], .regularFile⟩] }).2.uploadBucket ∧
    (uploadIteration (fun n => decide (n ≠ ['a']))
        { emptyState with
          inputDir := [⟨['a'], .regularFile⟩, ⟨['b'], .regularFile⟩] }).2
      = { emptyState with
          inputDir := [⟨['a'], .regularFile⟩, ⟨['b'], .regularFile⟩] } := by
  decide

/-- C1 (amended): neither loop body catches per-item exceptions.  A
failure transferring the first candidate leaves that item unrecorded and
unarchived (it would be a candidate again), but it aborts the processing
of every remaining item of the iteration and escapes the iteration body
(result flag `false`), terminating the loop thread. -/
theorem transfer_failure_aborts_iteration (upOk dlOk : Name → Bool)
    (nOk : Bool) (s sd : ClientState) (e : DirEntry) (rest : List DirEntry)
    (k : Name) (krest : List Name)
    (hup : upOk (sanitize e.name) = false)
    (hk : k ∉ sd.downloadHistory) (hdl : dlOk k = false) :
    (uploadEntries upOk s (e :: rest) = (false, afterRename s e) ∧
      (afterRename s e).uploadHistory = s.uploadHistory ∧
      (afterRename s e).uploadPersist = s.uploadPersist ∧
      (afterRename s e).archiveDir = s.archiveDir ∧
      (afterRename s e).uploadBucket = s.uploadBucket) ∧
    downloadKeys dlOk nOk sd (k :: krest) = (false, sd) :=
  ⟨⟨uploadEntries_cons_fail upOk s e rest hup,
    afterRename_uploadHistory s e, afterRename_uploadPersist s e,
    afterRename_archiveDir s e, afterRename_uploadBucket s e⟩,
    downloadKeys_cons_dl_fail dlOk nOk sd k krest hk hdl⟩

/-- Witness for `transfer_failure_aborts_iteration` at concrete states. -/
theorem transfer_failure_aborts_iteration_witness :
    ((fun _ => false : Name → Bool)
        (sanitize (⟨['a'], .regularFile⟩ : DirEntry).name) = false ∧
      ['c'] ∉ emptyState.downloadHistory ∧
      (fun _ => false : Name → Bool) ['c'] = false) ∧
    ((uploadEntries (fun _ => false) emptyState
          [⟨['a'], .regularFile⟩, ⟨['b'], .regularFile⟩]
        = (false, afterRename emptyState ⟨['a'], .regularFile⟩) ∧
      (afterRename emptyState ⟨['a'], .regularFile⟩).uploadHistory
        = emptyState.uploadHistory ∧
      (afterRename emptyState ⟨['a'], .regularFile⟩).uploadPersist
        = emptyState.uploadPersist ∧
      (afterRename emptyState ⟨['a'], .regularFile⟩).archiveDir
        = emptyState.archiveDir ∧
      (afterRename emptyState ⟨['a'], .regularFile⟩).uploadBucket
        = emptyState.uploadBucket) ∧
    downloadKeys (fun _ => false) true emptyState [['c']]
      = (false, emptyState)) :=
  ⟨⟨rfl, by decide, rfl⟩,
    transfer_failure_aborts_iteration (fun _ => false) (fun _ => false) true
      emptyState emptyState ⟨['a'], .regularFile⟩ [⟨['b'], .regularFile⟩]
      ['c'] [] rfl (by decide) rfl⟩

/-! ## C3: only the download side consults its ledger -/

/-- C3 counterexample: with the loaded upload ledger already containing
`"a"` and the input directory containing a file named `"a"`, one upload
iteration transfers `"a"` to the bucket again — the Upload Loop never
consults the upload ledger, contradicting the claim that a name present
in the loaded Upload Ledger is never re-uploaded. -/
theorem upload_ledger_ignored_cex :
    ['a'] ∈ ({ emptyState with
        inputDir := [⟨['a'], .regularFile⟩],
        uploadHistory := [['a']],
        uploadPersist := [['a']] } : ClientState).uploadHistory ∧
    (uploadIteration (fun _ => true)
        { emptyState with
          inputDir := [⟨['a'], .regularFile⟩],
          uploadHistory := [['a']],
          uploadPersist := [['a']] }).2.uploadBucket = [['a']] := by
  decide

/-- C3 (amended): the Download Loop never re-downloads a key present in
the loaded download ledger — the number of copies of such a key in the
output directory is unchanged by an iteration.  The Upload Loop, by
contrast, performs no ledger-membership check: a file present in the
input directory is transferred even when its name is already in the
loaded upload ledger; re-upload across restarts is prevented only by the
archive move having removed the file from the input directory. -/
theorem download_ledger_prevents_retransfer (dlOk : Name → Bool)
    (nOk : Bool) (sd : ClientState) (k : Name) (upOk : Name → Bool)
    (s : ClientState) (e : DirEntry)
    (hk : k ∈ sd.downloadHistory)
    (_he : sanitize e.name ∈ s.uploadHistory)
    (hup : upOk (sanitize e.name) = true) :
    List.count k (checkForDownloads dlOk nOk sd).2.outputDir
      = List.count k sd.outputDir ∧
    (uploadFile upOk s e).2.uploadBucket
      = s.uploadBucket ++ [sanitize e.name] :=
  ⟨downloadKeys_count_outputDir dlOk nOk k (listS3Files sd) sd hk,
    by rw [uploadFile_ok upOk s e hup, afterArchive_uploadBucket]⟩

/-- Witness for `download_ledger_prevents_retransfer`: key `"k"` already
recorded while still listed remotely; filename `"a"` already recorded
while still in the input directory. -/
theorem download_ledger_prevents_retransfer_witness :
    (['k'] ∈ ({ emptyState with
        downloadBucket := [['k']],
        downloadHistory := [['k']],
        downloadPersist := [['k']] } : ClientState).downloadHistory ∧
      sanitize (⟨['a'], .regularFile⟩ : DirEntry).name
        ∈ ({ emptyState with
            inputDir := [⟨['a'], .regularFile⟩],
            uploadHistory := [['a']],
            uploadPersist := [['a']] } : ClientState).uploadHistory ∧
      (fun _ => true : Name → Bool)
        (sanitize (⟨['a'], .regularFile⟩ : DirEntry).name) = true) ∧
    (List.count ['k']
        (checkForDownloads (fun _ => true) true
          { emptyState with
            downloadBucket := [['k']],
            downloadHistory := [['k']],
            downloadPersist := [['k']] }).2.outputDir
      = List.count ['k']
        ({ emptyState with
            downloadBucket := [['k']],
            downloadHistory := [['k']],
            downloadPersist := [['k']] } : ClientState).outputDir ∧
    (uploadFile (fun _ => true)
        { emptyState with
          inputDir := [⟨['a'], .regularFile⟩],
          uploadHistory := [['a']],
          uploadPersist := [['a']] } ⟨['a'], .regularFile⟩).2.uploadBucket
      = ({ emptyState with
          inputDir := [⟨['a'], .regularFile⟩],
          uploadHistory := [['a']],
          uploadPersist := [['a']] } : ClientState).uploadBucket
        ++ [sanitize (⟨['a'], .regularFile⟩ : DirEntry).name]) :=
  ⟨⟨by decide, by decide, rfl⟩,
    download_ledger_prevents_retransfer (fun _ => true) true
      { emptyState with
        downloadBucket := [['k']],
        downloadHistory := [['k']],
        downloadPersist := [['k']] } ['k'] (fun _ => true)
      { emptyState with
        inputDir := [⟨['a'], .regularFile⟩],
        uploadHistory := [['a']],
        uploadPersist := [['a']] } ⟨['a'], .regularFile⟩
      (by decide) (by decide) rfl⟩

/-! ## C4: a notification-playback failure is not ignored -/

/-- C4 counterexample: with the download bucket listing `"a"`, an empty
download ledger, the download succeeding and `playsound` failing, the
iteration ends with an escaped exception: `"a"` sits in the output
directory but was never appended to the download ledger nor flushed —
contradicting the claim that a playback failure does not prevent the
append and flush. -/
theorem notify_failure_unrecorded_cex :
    (checkForDownloads (fun _ => true) false
        { emptyState with downloadBucket := [['a']] }).1 = false ∧
    ['a'] ∈ (checkForDownloads (fun _ => true) false
        { emptyState with downloadBucket := [['a']] }).2.outputDir ∧
    (checkForDownloads (fun _ => true) false
        { emptyState with downloadBucket := [['a']] }).2.downloadHistory
      = [] ∧
    (checkForDownloads (fun _ => true) false
        { emptyState with downloadBucket := [['a']] }).2.downloadPersist
      = [] := by
  decide

/-- C4 (amended): a failure of `playsound` is not caught: the key is left
in the output directory but the ledger append and flush of lines 137-139
are never reached (the in-memory ledger and the persisted file are both
unchanged), and the exception escapes, aborting the remainder of the
iteration and terminating the loop. -/
theorem notify_failure_blocks_record (dlOk : Name → Bool)
    (sd : ClientState) (k : Name) (rest : List Name)
    (hk : k ∉ sd.downloadHistory) (hdl : dlOk k = true) :
    downloadKeys dlOk false sd (k :: rest)
      = (false, { sd with outputDir := sd.outputDir ++ [k] }) ∧
    ({ sd with outputDir := sd.outputDir ++ [k] } : ClientState).downloadHistory
      = sd.downloadHistory ∧
    ({ sd with outputDir := sd.outputDir ++ [k] } : ClientState).downloadPersist
      = sd.downloadPersist :=
  ⟨downloadKeys_cons_notify_fail dlOk sd k rest hk hdl, rfl, rfl⟩

/-- Witness for `notify_failure_blocks_record` with key `"b"` and an
empty initial state. -/
theorem notify_failure_blocks_record_witness :
    (['b'] ∉ emptyState.downloadHistory ∧
      (fun _ => true : Name → Bool) ['b'] = true) ∧
    (downloadKeys (fun _ => true) false emptyState [['b']]
      = (false, { emptyState with outputDir := emptyState.outputDir ++ [['b']] }) ∧
    ({ emptyState with
        outputDir := emptyState.outputDir ++ [['b']] } : ClientState).downloadHistory
      = emptyState.downloadHistory ∧
    ({ emptyState with
        outputDir := emptyState.outputDir ++ [['b']] } : ClientState).downloadPersist
      = emptyState.downloadPersist) :=
  ⟨⟨by decide, rfl⟩,
    notify_failure_blocks_record (fun _ => true) emptyState ['b'] []
      (by decide) rfl⟩

/-! ## C9: append-only ledgers; only the download ledger is duplicate-free -/

/-- C9 counterexample: with the loaded upload ledger already containing
`"b"` and a file named `"b"` present in the input directory, one upload
iteration appends `"b"` a second time: the upload ledger ends as
`["b", "b"]`, a duplicate — contradicting the claim that processing the
same filename again never produces a duplicate ledger entry. -/
theorem upload_ledger_duplicate_cex :
    (uploadIteration (fun _ => true)
        { emptyState with
          inputDir := [⟨['b'], .regularFile⟩],
          uploadHistory := [['b']],
          uploadPersist := [['b']] }).2.uploadHistory = [['b'], ['b']] ∧
    ¬ (uploadIteration (fun _ => true)
        { emptyState with
          inputDir := [⟨['b'], .regularFile⟩],
          uploadHistory := [['b']],
          uploadPersist := [['b']] }).2.uploadHistory.Nodup := by
  decide

/-- C9 (amended): both ledgers are append-only — an iteration only ever
appends to the in-memory ledgers and, provided the persisted file agreed
with memory beforehand (as it does right after loading at startup), the
persisted file also only grows and stays equal to memory.  The download
ledger additionally stays duplicate-free thanks to the membership check
of `_check_for_downloads`; the upload ledger has no such guard, and
re-processing an already recorded filename appends a duplicate entry. -/
theorem ledgers_append_only (upOk dlOk : Name → Bool) (nOk : Bool)
    (s sd : ClientState) (l : List DirEntry) (keys : List Name)
    (hnd : sd.downloadHistory.Nodup)
    (hpu : s.uploadPersist = s.uploadHistory)
    (hpd : sd.downloadPersist = sd.downloadHistory) :
    (∃ t, (uploadEntries upOk s l).2.uploadHistory = s.uploadHistory ++ t) ∧
    (∃ t, (uploadEntries upOk s l).2.uploadPersist = s.uploadPersist ++ t) ∧
    (∃ t, (downloadKeys dlOk nOk sd keys).2.downloadHistory
        = sd.downloadHistory ++ t) ∧
    (∃ t, (downloadKeys dlOk nOk sd keys).2.downloadPersist
        = sd.downloadPersist ++ t) ∧
    (downloadKeys dlOk nOk sd keys).2.downloadHistory.Nodup := by
  obtain ⟨t1, ht1⟩ := uploadEntries_uploadHistory_append upOk l s
  obtain ⟨t2, ht2⟩ := downloadKeys_history_append dlOk nOk keys sd
  refine ⟨⟨t1, ht1⟩, ⟨t1, ?_⟩, ⟨t2, ht2⟩, ⟨t2, ?_⟩,
    downloadKeys_nodup dlOk nOk keys sd hnd⟩
  · rw [uploadEntries_persist_inv upOk l s hpu, ht1, hpu]
  · rw [downloadKeys_persist_inv dlOk nOk keys sd hpd, ht2, hpd]

/-- Witness for `ledgers_append_only` at concrete states: uploading `"a"`
onto the ledger `["a"]` and downloading from a bucket listing `["c"]`
with ledger `["d"]`. -/
theorem ledgers_append_only_witness :
    (({ emptyState with
        downloadHistory := [['d']],
        downloadPersist := [['d']] } : ClientState).downloadHistory.Nodup ∧
      ({ emptyState with
        uploadHistory := [['a']],
        uploadPersist := [['a']] } : ClientState).uploadPersist
        = ({ emptyState with
            uploadHistory := [['a']],
            uploadPersist := [['a']] } : ClientState).uploadHistory ∧
      ({ emptyState with
        downloadHistory := [['d']],
        downloadPersist := [['d']] } : ClientState).downloadPersist
        = ({ emptyState with
            downloadHistory := [['d']],
            downloadPersist := [['d']] } : ClientState).downloadHistory) ∧
    ((∃ t, (uploadEntries (fun _ => true)
          { emptyState with
            uploadHistory := [['a']],
            uploadPersist := [['a']] } [⟨['a'], .regularFile⟩]).2.uploadHistory
        = ({ emptyState with
            uploadHistory := [['a']],
            uploadPersist := [['a']] } : ClientState).uploadHistory ++ t) ∧
    (∃ t, (uploadEntries (fun _ => true)
          { emptyState with
            uploadHistory := [['a']],
            uploadPersist := [['a']] } [⟨['a'], .regularFile⟩]).2.uploadPersist
        = ({ emptyState with
            uploadHistory := [['a']],
            uploadPersist := [['a']] } : ClientState).uploadPersist ++ t) ∧
    (∃ t, (downloadKeys (fun _ => true) true
          { emptyState with
            downloadHistory := [['d']],
            downloadPersist := [['d']] } [['c']]).2.downloadHistory
        = ({ emptyState with
            downloadHistory := [['d']],
            downloadPersist := [['d']] } : ClientState).downloadHistory ++ t) ∧
    (∃ t, (downloadKeys (fun _ => true) true
          { emptyState with
            downloadHistory := [['d']],
            downloadPersist := [['d']] } [['c']]).2.downloadPersist
        = ({ emptyState with
            downloadHistory := [['d']],
            downloadPersist := [['d']] } : ClientState).downloadPersist ++ t) ∧
    (downloadKeys (fun _ => true) true
        { emptyState with
          downloadHistory := [['d']],
          downloadPersist := [['d']] } [['c']]).2.downloadHistory.Nodup) :=
  ⟨⟨by decide, rfl, rfl⟩,
    ledgers_append_only (fun _ => true) (fun _ => true) true
      { emptyState with uploadHistory := [['a']], uploadPersist := [['a']] }
      { emptyState with downloadHistory := [['d']], downloadPersist := [['d']] }
      [⟨['a'], .regularFile⟩] [['c']] (by decide) rfl rfl⟩

/-! ## C8: one download iteration fetches exactly the unrecorded keys -/

theorem downloadKeys_allOk (dlOk : Name → Bool) (keys : List Name) :
    ∀ s : ClientState, keys.Nodup → (∀ k ∈ keys, dlOk k = true) →
      (downloadKeys dlOk true s keys).1 = true ∧
      (downloadKeys dlOk true s keys).2.outputDir
        = s.outputDir ++ keys.filter (fun k => decide (k ∉ s.downloadHistory)) ∧
      (downloadKeys dlOk true s keys).2.downloadHistory
        = s.downloadHistory
          ++ keys.filter (fun k => decide (k ∉ s.downloadHistory)) := by
  induction keys with
  | nil =>
    intro s _ _
    exact ⟨rfl, by simp [downloadKeys], by simp [downloadKeys]⟩
  | cons k rest ih =>
    intro s hnd hall
    obtain ⟨hkrest, hrestnd⟩ := List.nodup_cons.mp hnd
    have hdl : dlOk k = true := hall k (List.mem_cons_self k rest)
    have hall' : ∀ x ∈ rest, dlOk x = true :=
      fun x hx => hall x (List.mem_cons_of_mem k hx)
    by_cases hk : k ∈ s.downloadHistory
    · rw [downloadKeys_cons_mem dlOk true s k rest hk]
      have hfilter : (k :: rest).filter (fun x => decide (x ∉ s.downloadHistory))
          = rest.filter (fun x => decide (x ∉ s.downloadHistory)) := by
        simp [List.filter_cons, hk]
      rw [hfilter]
      exact ih s hrestnd hall'
    · rw [downloadKeys_cons_ok dlOk s k rest hk hdl]
      obtain ⟨h1, h2, h3⟩ := ih
        { s with
          outputDir := s.outputDir ++ [k],
          downloadHistory := s.downloadHistory ++ [k],
          downloadPersist := s.downloadHistory ++ [k] } hrestnd hall'
      have hfilter : rest.filter
            (fun x => decide (x ∉ s.downloadHistory ++ [k]))
          = rest.filter (fun x => decide (x ∉ s.downloadHistory)) := by
        apply List.filter_congr
        intro x hx
        have hxk : x ≠ k := fun h => hkrest (h ▸ hx)
        simp [List.mem_append, hxk]
      have hcons : (k :: rest).filter (fun x => decide (x ∉ s.downloadHistory))
          = k :: rest.filter (fun x => decide (x ∉ s.downloadHistory)) := by
        simp [List.filter_cons, hk]
      refine ⟨h1, ?_, ?_⟩
      · rw [h2]
        simp only [hfilter, hcons, List.append_assoc, List.singleton_append]
      · rw [h3]
        simp only [hfilter, hcons, List.append_assoc, List.singleton_append]

/-- C8: in one `_check_for_downloads` iteration with every transfer and
the notification succeeding, a key already present in the download ledger
is never downloaded (its copy count in the output directory is
unchanged), and exactly the listed keys absent from the ledger are
downloaded into the output directory, in listing order, and appended to
the in-memory ledger and the persisted file. -/
theorem download_iteration_exactly_new_keys (dlOk : Name → Bool)
    (s : ClientState)
    (hnd : (listS3Files s).Nodup)
    (hall : ∀ k ∈ listS3Files s, dlOk k = true)
    (hp : s.downloadPersist = s.downloadHistory) :
    (checkForDownloads dlOk true s).1 = true ∧
    (checkForDownloads dlOk true s).2.outputDir
      = s.outputDir
        ++ (listS3Files s).filter (fun k => decide (k ∉ s.downloadHistory)) ∧
    (checkForDownloads dlOk true s).2.downloadHistory
      = s.downloadHistory
        ++ (listS3Files s).filter (fun k => decide (k ∉ s.downloadHistory)) ∧
    (checkForDownloads dlOk true s).2.downloadPersist
      = (checkForDownloads dlOk true s).2.downloadHistory ∧
    ∀ k ∈ s.downloadHistory,
      List.count k (checkForDownloads dlOk true s).2.outputDir
        = List.count k s.outputDir := by
  obtain ⟨h1, h2, h3⟩ := downloadKeys_allOk dlOk (listS3Files s) s hnd hall
  exact ⟨h1, h2, h3, downloadKeys_persist_inv dlOk true (listS3Files s) s hp,
    fun k hk => downloadKeys_count_outputDir dlOk true k (listS3Files s) s hk⟩

/-- Witness for `download_iteration_exactly_new_keys`: the bucket lists
`["a", "b"]` while `"a"` is already recorded, so only `"b"` is
downloaded. -/
theorem download_iteration_exactly_new_keys_witness :
    ((listS3Files { emptyState with
        downloadBucket := [['a'], ['b']],
        downloadHistory := [['a']],
        downloadPersist := [['a']] }).Nodup ∧
      (∀ k ∈ listS3Files { emptyState with
          downloadBucket := [['a'], ['b']],
          downloadHistory := [['a']],
          downloadPersist := [['a']] }, (fun _ => true : Name → Bool) k = true) ∧
      ({ emptyState with
          downloadBucket := [['a'], ['b']],
          downloadHistory := [['a']],
          downloadPersist := [['a']] } : ClientState).downloadPersist
        = ({ emptyState with
            downloadBucket := [['a'], ['b']],
            downloadHistory := [['a']],
            downloadPersist := [['a']] } : ClientState).downloadHistory) ∧
    ((checkForDownloads (fun _ => true) true
        { emptyState with
          downloadBucket := [['a'], ['b']],
          downloadHistory := [['a']],
          downloadPersist := [['a']] }).1 = true ∧
      (checkForDownloads (fun _ => true) true
          { emptyState with
            downloadBucket := [['a'], ['b']],
            downloadHistory := [['a']],
            downloadPersist := [['a']] }).2.outputDir
        = ({ emptyState with
            downloadBucket := [['a'], ['b']],
            downloadHistory := [['a']],
            downloadPersist := [['a']] } : ClientState).outputDir
          ++ (listS3Files { emptyState with
              downloadBucket := [['a'], ['b']],
              downloadHistory := [['a']],
              downloadPersist := [['a']] }).filter
            (fun k => decide (k ∉ ({ emptyState with
                downloadBucket := [['a'], ['b']],
                downloadHistory := [['a']],
                downloadPersist := [['a']] } : ClientState).downloadHistory)) ∧
      (checkForDownloads (fun _ => true) true
          { emptyState with
            downloadBucket := [['a'], ['b']],
            downloadHistory := [['a']],
            downloadPersist := [['a']] }).2.downloadHistory
        = ({ emptyState with
            downloadBucket := [['a'], ['b']],
            downloadHistory := [['a']],
            downloadPersist := [['a']] } : ClientState).downloadHistory
          ++ (listS3Files { emptyState with
              downloadBucket := [['a'], ['b']],
              downloadHistory := [['a']],
              downloadPersist := [['a']] }).filter
            (fun k => decide (k ∉ ({ emptyState with
                downloadBucket := [['a'], ['b']],
                downloadHistory := [['a']],
                downloadPersist := [['a']] } : ClientState).downloadHistory)) ∧
      (checkForDownloads (fun _ => true) true
          { emptyState with
            downloadBucket := [['a'], ['b']],
            downloadHistory := [['a']],
            downloadPersist := [['a']] }).2.downloadPersist
        = (checkForDownloads (fun _ => true) true
            { emptyState with
              downloadBucket := [['a'], ['b']],
              downloadHistory := [['a']],
              downloadPersist := [['a']] }).2.downloadHistory ∧
      ∀ k ∈ ({ emptyState with
          downloadBucket := [['a'], ['b']],
          downloadHistory := [['a']],
          downloadPersist := [['a']] } : ClientState).downloadHistory,
        List.count k (checkForDownloads (fun _ => true) true
            { emptyState with
              downloadBucket := [['a'], ['b']],
              downloadHistory := [['a']],
              downloadPersist := [['a']] }).2.outputDir
          = List.count k ({ emptyState with
              downloadBucket := [['a'], ['b']],
              downloadHistory := [['a']],
              downloadPersist := [['a']] } : ClientState).outputDir) :=
  ⟨⟨by decide, fun k _ => rfl, rfl⟩,
    download_iteration_exactly_new_keys (fun _ => true)
      { emptyState with
        downloadBucket := [['a'], ['b']],
        downloadHistory := [['a']],
        downloadPersist := [['a']] } (by decide) (fun k _ => rfl) rfl⟩

/-! ## C5: shutdown is observed only at the loop head; the sleep is not
interruptible -/

theorem loopRun_stopped (si : Nat) (r : Bool) (i : Nat) :
    ∀ n, loopRun si ⟨.stopped, r, i⟩ n = ⟨.stopped, r, i⟩ := by
  intro n
  induction n with
  | zero => rfl
  | succ n ih => exact ih

theorem loopRun_add (si m : Nat) :
    ∀ (s : LoopState) (n : Nat),
      loopRun si s (m + n) = loopRun si (loopRun si s m) n := by
  induction m with
  | zero =>
    intro s n
    rw [Nat.zero_add]
    rfl
  | succ m ih =>
    intro s n
    rw [Nat.succ_add]
    exact ih (loopStep si s) n

theorem loopRun_check_stops (si i : Nat) :
    ∀ n, loopRun si ⟨.check, false, i⟩ (n + 1) = ⟨.stopped, false, i⟩ := by
  intro n
  show loopRun si (loopStep si ⟨.check, false, i⟩) n = _
  exact loopRun_stopped si false i n

theorem loopRun_sleeping_stops (si i : Nat) :
    ∀ k, loopRun si ⟨.sleeping k, false, i⟩ (k + 2) = ⟨.stopped, false, i⟩ := by
  intro k
  induction k with
  | zero => rfl
  | succ k ih => exact ih

/-- C5 counterexample: with `sleep_interval = 10` and the running flag
already cleared, a loop five ticks into its sleep keeps sleeping (the next
state is four remaining ticks, not termination) and is still not stopped
six steps later; it stops only once the whole remaining sleep has elapsed
(seven steps).  The `time.sleep` call is therefore not interruptible by
the cancellation signal. -/
theorem sleep_not_interruptible_cex :
    loopStep 10 ⟨.sleeping 5, false, 0⟩ = ⟨.sleeping 4, false, 0⟩ ∧
    (loopRun 10 ⟨.sleeping 5, false, 0⟩ 6).phase ≠ .stopped ∧
    (loopRun 10 ⟨.sleeping 5, false, 0⟩ 7).phase = .stopped := by
  decide

/-- C5 (amended): once the running flag is cleared, a loop performs at
most its in-flight iteration body (none at all if it was not mid-body)
and reaches the terminated state within one full `sleep_interval` plus
the current iteration — the flag is observed at the `while` test, which
is the top of each iteration and the first evaluation after waking from
sleep; the sleep itself always runs to completion and is not
interruptible. -/
theorem loop_stops_after_flag_clear (si : Nat) (s : LoopState)
    (hr : s.running = false)
    (hs : ∀ m, s.phase = .sleeping m → m ≤ si) :
    (loopRun si s (si + 3)).phase = .stopped ∧
    (loopRun si s (si + 3)).iterations ≤ s.iterations + 1 ∧
    (s.phase ≠ .work → (loopRun si s (si + 3)).iterations = s.iterations) ∧
    (s.phase = .check → loopStep si s = { s with phase := .stopped }) ∧
    (s.phase = .sleeping 0 → (loopStep si s).phase = .check) := by
  obtain ⟨ph, r, i⟩ := s
  cases hr
  cases ph with
  | check =>
    have h : loopRun si ⟨.check, false, i⟩ (si + 3)
        = ⟨.stopped, false, i⟩ := loopRun_check_stops si i (si + 2)
    rw [h]
    refine ⟨rfl, Nat.le_succ i, fun _ => rfl, fun _ => rfl, ?_⟩
    intro hc
    cases hc
  | work =>
    have h : loopRun si ⟨.work, false, i⟩ (si + 3)
        = ⟨.stopped, false, i + 1⟩ := by
      show loopRun si (loopStep si ⟨.work, false, i⟩) (si + 2) = _
      exact loopRun_sleeping_stops si (i + 1) si
    rw [h]
    refine ⟨rfl, Nat.le_refl _, fun hw => absurd rfl hw, ?_, ?_⟩
    · intro hc
      cases hc
    · intro hc
      cases hc
  | sleeping m =>
    have hm : m ≤ si := hs m rfl
    have hsplit : si + 3 = (m + 2) + (si + 1 - m) := by omega
    have h : loopRun si ⟨.sleeping m, false, i⟩ (si + 3)
        = ⟨.stopped, false, i⟩ := by
      rw [hsplit, loopRun_add, loopRun_sleeping_stops, loopRun_stopped]
    rw [h]
    refine ⟨rfl, Nat.le_succ i, fun _ => rfl, ?_, ?_⟩
    · intro hc
      cases hc
    · intro hsl
      cases hsl
      rfl
  | stopped =>
    rw [loopRun_stopped]
    refine ⟨rfl, Nat.le_succ i, fun _ => rfl, ?_, ?_⟩
    · intro hc
      cases hc
    · intro hc
      cases hc

/-- Witness for `loop_stops_after_flag_clear`: flag already cleared while
at the loop head, with `sleep_interval = 2`. -/
theorem loop_stops_after_flag_clear_witness :
    ((⟨.check, false, 7⟩ : LoopState).running = false ∧
      (∀ m, (⟨.check, false, 7⟩ : LoopState).phase = .sleeping m → m ≤ 2)) ∧
    ((loopRun 2 ⟨.check, false, 7⟩ (2 + 3)).phase = .stopped ∧
      (loopRun 2 ⟨.check, false, 7⟩ (2 + 3)).iterations
        ≤ (⟨.check, false, 7⟩ : LoopState).iterations + 1 ∧
      ((⟨.check, false, 7⟩ : LoopState).phase ≠ .work →
        (loopRun 2 ⟨.check, false, 7⟩ (2 + 3)).iterations
          = (⟨.check, false, 7⟩ : LoopState).iterations) ∧
      ((⟨.check, false, 7⟩ : LoopState).phase = .check →
        loopStep 2 ⟨.check, false, 7⟩
          = { (⟨.check, false, 7⟩ : LoopState) with phase := .stopped }) ∧
      ((⟨.check, false, 7⟩ : LoopState).phase = .sleeping 0 →
        (loopStep 2 ⟨.check, false, 7⟩).phase = .check)) :=
  ⟨⟨rfl, fun _ hm => nomatch hm⟩,
    loop_stops_after_flag_clear 2 ⟨.check, false, 7⟩ rfl
      (fun _ hm => nomatch hm)⟩

end Client
